import Mathlib

/-!
Shallow embedding of the AIFirewall rule-based static evaluation engine
(`backend/policy_engine.py`, `backend/security_analyzer.py`, and the
`/analyze-with-policies` endpoint of `backend/main.py`), together with proofs
about the embedded definitions.

Strings are modelled as `List Char`.  The Python `re` module is external to
the repository; each regex literal of the source is transcribed into a small
regex AST (`Re`) and matched by an executable backtracking matcher that
follows the `re` semantics used by the source (case-insensitive search,
leftmost match, greedy repetition, left-biased alternation).  Python floats
are modelled by rationals.  `ast.parse` cannot be embedded, so the parse
outcome is a parameter of type `Option AstInfo`: `none` models a parse
failure (the `except SyntaxError` branch), `some t` a successful parse
whose import names and resolved call names are listed in `t`.
-/

namespace AIFirewall

/-- Strings of the analyzed program and of the configuration, as lists of
characters. -/
abbrev Str := List Char

/-- Shorthand turning a Lean string literal into the `Str` model. -/
def str (s : String) : Str := s.toList

/-- The single-quote character, written by code point to keep source plain. -/
def squote : Char := Char.ofNat 39

/-- Python `str.lower` restricted to the ASCII range used by the sources. -/
def lower (s : Str) : Str := s.map Char.toLower

/-- Membership of the `\w` regex class: `[a-zA-Z0-9_]`. -/
def isWordChar (c : Char) : Bool := c.isAlphanum || c == '_'

/-- Membership of the `\s` regex class (ASCII whitespace). -/
def isSpaceChar (c : Char) : Bool :=
  c == ' ' || c == '\t' || c == '\n' || c == '\r' || c == '\x0b' || c == '\x0c'

/-- Python `code.split` on a newline separator: every newline ends a line and
the empty string yields one empty line. -/
def splitLinesAux : Str → Str → List Str
  | acc, [] => [acc.reverse]
  | acc, c :: rest =>
    if c == '\n' then acc.reverse :: splitLinesAux [] rest
    else splitLinesAux (c :: acc) rest

/-- Lines of a source text, as produced by `code.split` in `_check_rule` and
`_analyze_string_patterns`. -/
def splitLines (code : Str) : List Str := splitLinesAux [] code

/-- Python `str.strip`: whitespace removed from both ends. -/
def pyStrip (s : Str) : Str :=
  ((s.dropWhile isSpaceChar).reverse.dropWhile isSpaceChar).reverse

/-- Python `needle in hay` on strings: some prefix position carries `needle`
as a contiguous block. -/
def listContains (hay needle : Str) : Bool :=
  (List.range (hay.length + 1)).any fun i =>
    decide ((hay.drop i).take needle.length = needle)

/-- Python `enumerate(lines, 1)`. -/
def enum1 (lines : List Str) : List (Nat × Str) :=
  lines.enum.map fun p => (p.1 + 1, p.2)

/-- The `fnmatch.fnmatch` glob matcher as used on POSIX: `*` matches any run
of characters (possibly empty), `?` any single character, every other
character only itself, case-sensitively.  First argument is the pattern,
second the name. -/
def fnmatchL : Str → Str → Bool
  | [], n => n.isEmpty
  | '*' :: ps, ns => ns.tails.any fun t => fnmatchL ps t
  | '?' :: ps, ns =>
    match ns with
    | [] => false
    | _ :: ns' => fnmatchL ps ns'
  | c :: ps, ns =>
    match ns with
    | [] => false
    | d :: ns' => c == d && fnmatchL ps ns'

/-- `PolicyEngine._is_exception_allowed`: the value is tested against every
glob of the allow list. -/
def isExceptionAllowed (value : Str) (exceptions : List Str) : Bool :=
  exceptions.any fun e => fnmatchL e value

/-! ### A small regex AST and matcher

Only the constructs appearing in the regex literals of the repository are
represented: literal characters, character classes, `.`, `\w`, `\s`, `\d`,
concatenation, alternation, `*` (with `+` and `{3,}` desugared to it), the
word boundary `\b` and the negative lookahead `(?!...)`.  Matching is
case-insensitive because every `re.search`/`re.finditer` call in the sources
passes `re.IGNORECASE`. -/

inductive Re where
  | eps : Re
  | lit : Char → Re
  | cls : List Char → Re
  | dot : Re
  | wordC : Re
  | spaceC : Re
  | digitC : Re
  | seq : Re → Re → Re
  | alt : Re → Re → Re
  | star : Re → Re
  | wordB : Re
  | negLook : Re → Re
deriving DecidableEq

/-- Case-insensitive character comparison, as under `re.IGNORECASE`. -/
def chEq (c d : Char) : Bool := c.toLower == d.toLower

/-- Word-boundary test between the reversed consumed prefix and the rest. -/
def boundaryAt (rev rest : Str) : Bool :=
  (match rev with | [] => false | c :: _ => isWordChar c)
    != (match rest with | [] => false | c :: _ => isWordChar c)

/-- Backtracking matcher.  A state is the reversed consumed prefix paired
with the remaining input; the result lists all reachable states in the
backtracking priority order of `re` (greedy repetition, left-biased
alternation), so its head is the alternative `re` commits to.  The fuel
bounds the call depth and is chosen large enough by the wrappers below. -/
def mtch : Nat → Re → Str → Str → List (Str × Str)
  | 0, _, _, _ => []
  | _ + 1, .eps, rev, rest => [(rev, rest)]
  | _ + 1, .lit c, rev, rest =>
    match rest with
    | [] => []
    | d :: rest' => if chEq c d then [(d :: rev, rest')] else []
  | _ + 1, .cls cs, rev, rest =>
    match rest with
    | [] => []
    | d :: rest' => if cs.any (fun c => chEq c d) then [(d :: rev, rest')] else []
  | _ + 1, .dot, rev, rest =>
    match rest with
    | [] => []
    | d :: rest' => if d == '\n' then [] else [(d :: rev, rest')]
  | _ + 1, .wordC, rev, rest =>
    match rest with
    | [] => []
    | d :: rest' => if isWordChar d then [(d :: rev, rest')] else []
  | _ + 1, .spaceC, rev, rest =>
    match rest with
    | [] => []
    | d :: rest' => if isSpaceChar d then [(d :: rev, rest')] else []
  | _ + 1, .digitC, rev, rest =>
    match rest with
    | [] => []
    | d :: rest' => if d.isDigit then [(d :: rev, rest')] else []
  | f + 1, .seq r1 r2, rev, rest =>
    (mtch f r1 rev rest).flatMap fun s => mtch f r2 s.1 s.2
  | f + 1, .alt r1 r2, rev, rest => mtch f r1 rev rest ++ mtch f r2 rev rest
  | f + 1, .star r, rev, rest =>
    ((mtch f r rev rest).filter fun s => s.2.length < rest.length).flatMap
        (fun s => mtch f (.star r) s.1 s.2)
      ++ [(rev, rest)]
  | _ + 1, .wordB, rev, rest => if boundaryAt rev rest then [(rev, rest)] else []
  | f + 1, .negLook r, rev, rest =>
    if (mtch f r rev rest).isEmpty then [(rev, rest)] else []

/-- Structural size of a regex, used to bound the matcher call depth. -/
def reSize : Re → Nat
  | .seq r1 r2 => reSize r1 + reSize r2 + 1
  | .alt r1 r2 => reSize r1 + reSize r2 + 1
  | .star r => reSize r + 1
  | .negLook r => reSize r + 1
  | _ => 1

/-- Fuel sufficient for any derivation of `mtch` on the given input. -/
def matchFuel (re : Re) (rest : Str) : Nat :=
  (reSize re + 2) * (rest.length + 2)

/-- Attempt of a match at every successive start position, as `re.search`
does: the result carries the reversed prefix before the match, the matched
text and the remaining suffix. -/
def searchFrom (re : Re) : Str → Str → Option (Str × Str × Str)
  | rev, [] =>
    match mtch (matchFuel re []) re rev [] with
    | s :: _ => some (rev, (s.1.take (s.1.length - rev.length)).reverse, s.2)
    | [] => none
  | rev, c :: rest =>
    match mtch (matchFuel re (c :: rest)) re rev (c :: rest) with
    | s :: _ => some (rev, (s.1.take (s.1.length - rev.length)).reverse, s.2)
    | [] => searchFrom re (c :: rev) rest

/-- `re.search` as a Boolean: does the pattern match anywhere in the line. -/
def reSearch (re : Re) (line : Str) : Bool := (searchFrom re [] line).isSome

/-- Matched texts of `re.finditer`, left to right and non-overlapping; an
empty match advances the scan by one character. -/
def findIterAux : Nat → Re → Str → Str → List Str
  | 0, _, _, _ => []
  | f + 1, re, rev, rest =>
    match searchFrom re rev rest with
    | none => []
    | some (revAt, m, rest') =>
      if m.isEmpty then
        m :: (match rest' with
              | [] => []
              | c :: rest'' => findIterAux f re (c :: revAt) rest'')
      else m :: findIterAux f re (m.reverse ++ revAt) rest'

/-- All matches of a pattern in one line, as `re.finditer` yields them. -/
def findIter (re : Re) (line : Str) : List Str :=
  findIterAux (line.length + 1) re [] line

/-- Concatenation of a list of regexes. -/
def reCat (l : List Re) : Re := l.foldr Re.seq Re.eps

/-- Literal string regex, the transcription of an escaped regex fragment. -/
def reStr (s : Str) : Re := reCat (s.map Re.lit)

/-- The `+` postfix operator: one copy followed by a star. -/
def rePlus (r : Re) : Re := Re.seq r (Re.star r)

/-- The `.*` fragment. -/
def dotStar : Re := Re.star Re.dot

/-- The character class `[' "]` appearing throughout the source patterns. -/
def quoteCls : Re := Re.cls [squote, '"']

/-! ### Policy engine data model (`policy_engine.py`) -/

inductive PolicySeverity where
  | low | medium | high | critical
deriving DecidableEq

inductive PolicyAction where
  | warn | block | log
deriving DecidableEq

/-- The `PolicyViolation` dataclass.  The interpolated `description` and
`suggestion` strings of the source quote their parameters between
single-quote characters; the embedding reproduces the interpolation without
those quote characters, which no computation inspects. -/
structure PolicyViolation where
  ruleId : Str
  ruleName : Str
  severity : PolicySeverity
  action : PolicyAction
  description : Str
  lineNumber : Option Nat := none
  columnNumber : Option Nat := none
  matchedContent : Option Str := none
  suggestion : Option Str := none
  policyCategory : Str := str "custom"
deriving DecidableEq

/-- The recognised keys of the `context_conditions` mapping.  The source
stores a plain dictionary and reads exactly the keys `file_patterns`,
`environment` and `time_restrictions` (the last with an empty handler);
unrecognised keys never influence filtering, so only presence of the read
keys is modelled.  `timeRestrictions` records mere presence of its key. -/
structure ContextConditions where
  filePatterns : Option (List Str) := none
  environment : Option (List Str) := none
  timeRestrictions : Bool := false
deriving DecidableEq

/-- Python truthiness of the `context_conditions` dictionary restricted to
its read keys: the filter returns the violations unchanged when no condition
is present. -/
def ContextConditions.isEmptyCC (cc : ContextConditions) : Bool :=
  cc.filePatterns.isNone && cc.environment.isNone && !cc.timeRestrictions

/-- The `PolicyRule` dataclass.  Patterns are regex literals of the
configuration; each is transcribed into the `Re` AST.  The dormant
`custom_ast_checks` field only feeds the placeholder `_check_ast_rules`
and is carried as an opaque count-free list of names. -/
structure PolicyRule where
  id : Str
  name : Str := str ""
  description : Str := str ""
  severity : PolicySeverity := .medium
  action : PolicyAction := .warn
  enabled : Bool := true
  patterns : List Re := []
  forbiddenImports : List Str := []
  forbiddenFunctions : List Str := []
  forbiddenDirectories : List Str := []
  forbiddenEnvVars : List Str := []
  forbiddenFileOperations : List Str := []
  allowedExceptions : List Str := []
  contextConditions : ContextConditions := {}
  customAstChecks : List Str := []
  category : Str := str "custom"
  tags : List Str := []
deriving DecidableEq

/-- The caller-supplied context dictionary.  The engine reads exactly one
key, `environment`, via `context.get` with default `development`. -/
structure AnalysisContext where
  environment : Option Str := none
deriving DecidableEq

/-- Interface of a successful `ast.parse`: the structural checks consume
only the fully qualified import names (module, or module.name for
from-imports) and the resolved callee names, each with its line number.
Parsing Python is outside the embedding, so callers of `analyzeCode` supply
the parse outcome explicitly. -/
structure AstInfo where
  imports : List (Str × Option Nat) := []
  calls : List (Str × Option Nat) := []
deriving DecidableEq

/-- `PolicyEngine._check_patterns`: every pattern is run with `re.finditer`
over every line; every match yields one violation unless the matched
substring satisfies an allow-exception glob. -/
def checkPatterns (rule : PolicyRule) (lines : List Str) : List PolicyViolation :=
  rule.patterns.flatMap fun re =>
    (enum1 lines).flatMap fun nl =>
      (findIter re nl.2).filterMap fun m =>
        if isExceptionAllowed m rule.allowedExceptions then none
        else some
          { ruleId := rule.id
            ruleName := rule.name
            severity := rule.severity
            action := rule.action
            description := rule.description ++ str ": Pattern matched"
            lineNumber := some nl.1
            matchedContent := some m
            suggestion := some (str "Avoid using this pattern as it violates policy " ++ rule.name)
            policyCategory := rule.category }

/-- `PolicyEngine._check_imports`: every import name is tested against every
forbidden-import glob with `fnmatch`, then against the allow-exceptions. -/
def checkImports (rule : PolicyRule) (ast : AstInfo) : List PolicyViolation :=
  ast.imports.flatMap fun ml =>
    rule.forbiddenImports.filterMap fun forbidden =>
      if fnmatchL forbidden ml.1 && !isExceptionAllowed ml.1 rule.allowedExceptions then
        some
          { ruleId := rule.id
            ruleName := rule.name
            severity := rule.severity
            action := rule.action
            description := rule.description ++ str ": Forbidden import " ++ ml.1
            lineNumber := ml.2
            matchedContent := some ml.1
            suggestion := some (str "Import " ++ ml.1 ++ str " is forbidden by policy " ++ rule.name)
            policyCategory := rule.category }
      else none

/-- `PolicyEngine._check_functions`: like the import check, over the
resolved callee names. -/
def checkFunctions (rule : PolicyRule) (ast : AstInfo) : List PolicyViolation :=
  ast.calls.flatMap fun fl =>
    rule.forbiddenFunctions.filterMap fun forbidden =>
      if fnmatchL forbidden fl.1 && !isExceptionAllowed fl.1 rule.allowedExceptions then
        some
          { ruleId := rule.id
            ruleName := rule.name
            severity := rule.severity
            action := rule.action
            description := rule.description ++ str ": Forbidden function " ++ fl.1
            lineNumber := fl.2
            matchedContent := some fl.1
            suggestion := some (str "Function " ++ fl.1 ++ str " is forbidden by policy " ++ rule.name)
            policyCategory := rule.category }
      else none

/-- `PolicyEngine._check_ast_rules` is an explicit placeholder in the
source: the loop body is `pass`, so no custom AST check ever produces a
violation. -/
def checkAstRules (_rule : PolicyRule) (_ast : AstInfo) : List PolicyViolation := []

/-- Wildcard substitution performed before `re.escape` in the source:
`*` becomes the two characters `.` `*`. -/
def starSubst (s : Str) : Str :=
  s.flatMap fun c => if c == '*' then ['.', '*'] else [c]

/-- The three regex variants `_check_directory_access` builds for one
forbidden directory.  The source escapes the already-substituted string with
`re.escape`, so the whole substituted text — including the `.` and `*`
introduced for the wildcard — is matched literally. -/
def dirPatterns (d : Str) : List Re :=
  let e := reStr (starSubst d)
  [ reCat [quoteCls, e, quoteCls]
  , reCat [reStr (str "Path("), quoteCls, e, quoteCls, reStr (str ")")]
  , reCat [reStr (str "open("), quoteCls, e, quoteCls, reStr (str ")")] ]

/-- `PolicyEngine._check_directory_access`. -/
def checkDirectoryAccess (rule : PolicyRule) (lines : List Str) : List PolicyViolation :=
  (enum1 lines).flatMap fun nl =>
    rule.forbiddenDirectories.flatMap fun d =>
      (dirPatterns d).filterMap fun re =>
        if reSearch re nl.2 && !isExceptionAllowed d rule.allowedExceptions then
          some
            { ruleId := rule.id
              ruleName := rule.name
              severity := rule.severity
              action := rule.action
              description := rule.description ++ str ": Access to forbidden directory " ++ d
              lineNumber := some nl.1
              matchedContent := some (pyStrip nl.2)
              suggestion := some (str "Access to directory " ++ d
                ++ str " is forbidden by policy " ++ rule.name)
              policyCategory := rule.category }
        else none

/-- The four regex variants `_check_env_vars` builds for one forbidden
environment variable; the wildcard is neutralised by `re.escape` exactly as
in `dirPatterns`. -/
def envPatterns (v : Str) : List Re :=
  let e := reStr (starSubst v)
  [ reCat [reStr (str "os.environ["), quoteCls, e, quoteCls, reStr (str "]")]
  , reCat [reStr (str "getenv("), quoteCls, e, quoteCls, reStr (str ")")]
  , reCat [reStr (str "export"), rePlus Re.spaceC, e]
  , reCat [reStr (str "setenv("), quoteCls, e, quoteCls, reStr (str ")")] ]

/-- `PolicyEngine._check_env_vars`. -/
def checkEnvVars (rule : PolicyRule) (lines : List Str) : List PolicyViolation :=
  (enum1 lines).flatMap fun nl =>
    rule.forbiddenEnvVars.flatMap fun v =>
      (envPatterns v).filterMap fun re =>
        if reSearch re nl.2 && !isExceptionAllowed v rule.allowedExceptions then
          some
            { ruleId := rule.id
              ruleName := rule.name
              severity := rule.severity
              action := rule.action
              description := rule.description
                ++ str ": Access to forbidden environment variable " ++ v
              lineNumber := some nl.1
              matchedContent := some (pyStrip nl.2)
              suggestion := some (str "Environment variable " ++ v
                ++ str " access is forbidden by policy " ++ rule.name)
              policyCategory := rule.category }
        else none

/-- `PolicyEngine._check_file_operations`: plain case-insensitive substring
containment of the configured operation in the line. -/
def checkFileOperations (rule : PolicyRule) (lines : List Str) : List PolicyViolation :=
  (enum1 lines).flatMap fun nl =>
    rule.forbiddenFileOperations.filterMap fun op =>
      if listContains (lower nl.2) (lower op)
          && !isExceptionAllowed op rule.allowedExceptions then
        some
          { ruleId := rule.id
            ruleName := rule.name
            severity := rule.severity
            action := rule.action
            description := rule.description ++ str ": Forbidden file operation " ++ op
            lineNumber := some nl.1
            matchedContent := some (pyStrip nl.2)
            suggestion := some (str "File operation " ++ op
              ++ str " is forbidden by policy " ++ rule.name)
            policyCategory := rule.category }
      else none

/-- File-path condition of `_apply_context_conditions`: the glob test runs
only when the key is present and the supplied path is truthy (neither absent
nor empty). -/
def fileCondHolds (cc : ContextConditions) (filePath : Option Str) : Bool :=
  match cc.filePatterns, filePath with
  | some pats, some fp =>
    if fp.isEmpty then true else pats.any fun p => fnmatchL p fp
  | _, _ => true

/-- Environment condition of `_apply_context_conditions`: when the key is
present, the context environment (default `development`) must be a member of
the configured list. -/
def envCondHolds (cc : ContextConditions) (context : AnalysisContext) : Bool :=
  match cc.environment with
  | some envs => envs.contains (context.environment.getD (str "development"))
  | none => true

/-- `PolicyEngine._apply_context_conditions`.  The `time_restrictions`
branch of the source is an empty placeholder and never filters. -/
def applyContextConditions (rule : PolicyRule) (violations : List PolicyViolation)
    (context : AnalysisContext) (filePath : Option Str) : List PolicyViolation :=
  if rule.contextConditions.isEmptyCC then violations
  else violations.filter fun _ =>
    fileCondHolds rule.contextConditions filePath && envCondHolds rule.contextConditions context

/-- `PolicyEngine._check_rule`: pattern checks, then — only under a
successful parse — the structural checks, then the resource checks, then the
context filter. -/
def checkRule (rule : PolicyRule) (code : Str) (astTree : Option AstInfo)
    (filePath : Option Str) (context : AnalysisContext) : List PolicyViolation :=
  let lines := splitLines code
  let violations :=
    checkPatterns rule lines
      ++ (match astTree with
          | some t => checkImports rule t ++ checkFunctions rule t ++ checkAstRules rule t
          | none => [])
      ++ checkDirectoryAccess rule lines
      ++ checkEnvVars rule lines
      ++ checkFileOperations rule lines
  applyContextConditions rule violations context filePath

/-- `PolicyEngine.analyze_code`: every enabled rule is checked; the parse is
attempted once and its outcome (`none` on a syntax error) shared by all
rules.  The append to the violation history is state the claims never read
and is not modelled. -/
def analyzeCode (rules : List PolicyRule) (code : Str) (astTree : Option AstInfo)
    (filePath : Option Str) (context : AnalysisContext) : List PolicyViolation :=
  rules.flatMap fun r =>
    if r.enabled then checkRule r code astTree filePath context else []

/-- Response shape of the `/analyze-with-policies` endpoint of `main.py`
(fields the claims read; the timestamp is external state). -/
structure PolicyAnalysisResponse where
  violations : List PolicyViolation
  totalViolations : Nat
  riskLevel : Str
  criticalCount : Nat
  highCount : Nat
  mediumCount : Nat
  lowCount : Nat
  blocked : Bool
deriving DecidableEq

/-- `analyze_code_with_policies_endpoint` of `main.py`: runs the engine and
derives the risk level, severity summary and the `blocked` flag. -/
def analyzeWithPoliciesEndpoint (rules : List PolicyRule) (code : Str)
    (astTree : Option AstInfo) (filePath : Option Str) (context : AnalysisContext) :
    PolicyAnalysisResponse :=
  let vs := analyzeCode rules code astTree filePath context
  let critical := (vs.filter fun v => decide (v.severity = .critical)).length
  let high := (vs.filter fun v => decide (v.severity = .high)).length
  { violations := vs
    totalViolations := vs.length
    riskLevel :=
      if critical > 0 then str "CRITICAL"
      else if high > 0 then str "HIGH"
      else if vs.length > 0 then str "MEDIUM"
      else str "LOW"
    criticalCount := critical
    highCount := high
    mediumCount := (vs.filter fun v => decide (v.severity = .medium)).length
    lowCount := (vs.filter fun v => decide (v.severity = .low)).length
    blocked := vs.any fun v => decide (v.action = .block) }

/-! ### Default rule set (`PolicyEngine._create_default_policies`)

Each Python regex literal is transcribed into the `Re` AST next to a comment
naming its source text shape. -/

/-- Rule `prod_env_modification`. -/
def prodEnvModification : PolicyRule :=
  { id := str "prod_env_modification"
    name := str "Production Environment Modification"
    description := str "Prevents modification of production environment variables"
    severity := .critical
    action := .block
    forbiddenEnvVars := [str "PROD_*", str "PRODUCTION_*", str "*_PROD", str "*_PRODUCTION"]
    patterns :=
      [ -- os\.environ\[[one quote]PROD
        reCat [reStr (str "os.environ["), quoteCls, reStr (str "PROD")]
      , -- os\.environ\[[one quote]\w*PROD
        reCat [reStr (str "os.environ["), quoteCls, Re.star Re.wordC, reStr (str "PROD")]
      , -- setenv.*PROD
        reCat [reStr (str "setenv"), dotStar, reStr (str "PROD")]
      , -- export.*PROD
        reCat [reStr (str "export"), dotStar, reStr (str "PROD")] ]
    category := str "environment" }

/-- Rule `sensitive_directory_access`. -/
def sensitiveDirectoryAccess : PolicyRule :=
  { id := str "sensitive_directory_access"
    name := str "Sensitive Directory Access"
    description := str "Prevents access to sensitive system directories"
    severity := .high
    action := .warn
    forbiddenDirectories :=
      [str "/etc/*", str "/sys/*", str "/proc/*", str "/root/*", str "C:\\Windows\\*"]
    patterns :=
      [ -- open\([one quote]/etc/
        reCat [reStr (str "open("), quoteCls, reStr (str "/etc/")]
      , reCat [reStr (str "open("), quoteCls, reStr (str "/sys/")]
      , reCat [reStr (str "open("), quoteCls, reStr (str "/proc/")]
      , -- Path\([one quote]/etc/
        reCat [reStr (str "Path("), quoteCls, reStr (str "/etc/")] ]
    category := str "filesystem" }

/-- Rule `dangerous_libraries`. -/
def dangerousLibraries : PolicyRule :=
  { id := str "dangerous_libraries"
    name := str "Dangerous Library Usage"
    description := str "Prevents usage of potentially dangerous libraries"
    severity := .high
    action := .warn
    forbiddenImports := [str "pickle", str "dill", str "marshal", str "shelve"]
    patterns :=
      [ -- import\s+pickle
        reCat [reStr (str "import"), rePlus Re.spaceC, reStr (str "pickle")]
      , -- from\s+pickle\s+import
        reCat [reStr (str "from"), rePlus Re.spaceC, reStr (str "pickle"),
               rePlus Re.spaceC, reStr (str "import")]
      , reCat [reStr (str "import"), rePlus Re.spaceC, reStr (str "marshal")]
      , -- subprocess\.call.*shell=True
        reCat [reStr (str "subprocess.call"), dotStar, reStr (str "shell=True")] ]
    category := str "imports" }

/-- Rule `database_credential_exposure`. -/
def databaseCredentialExposure : PolicyRule :=
  { id := str "database_credential_exposure"
    name := str "Database Credential Exposure"
    description := str "Prevents hardcoded database credentials"
    severity := .critical
    action := .block
    patterns :=
      [ -- password\s*=\s*[one quote]\w+[one quote]
        reCat [reStr (str "password"), Re.star Re.spaceC, reStr (str "="),
               Re.star Re.spaceC, quoteCls, rePlus Re.wordC, quoteCls]
      , reCat [reStr (str "passwd"), Re.star Re.spaceC, reStr (str "="),
               Re.star Re.spaceC, quoteCls, rePlus Re.wordC, quoteCls]
      , -- mysql://.*:.*@
        reCat [reStr (str "mysql://"), dotStar, reStr (str ":"), dotStar, reStr (str "@")]
      , reCat [reStr (str "postgresql://"), dotStar, reStr (str ":"), dotStar, reStr (str "@")]
      , reCat [reStr (str "mongodb://"), dotStar, reStr (str ":"), dotStar, reStr (str "@")] ]
    category := str "credentials" }

/-- Rule `file_system_modifications`. -/
def fileSystemModifications : PolicyRule :=
  { id := str "file_system_modifications"
    name := str "File System Modifications"
    description := str "Controls file system modification operations"
    severity := .medium
    action := .warn
    forbiddenFileOperations := [str "rm -rf", str "rmdir", str "del /f", str "format"]
    patterns :=
      [ reStr (str "os.remove(")
      , reStr (str "os.rmdir(")
      , reStr (str "shutil.rmtree(")
      , -- pathlib.*\.unlink\(
        reCat [reStr (str "pathlib"), dotStar, reStr (str ".unlink(")]
      , -- subprocess.*rm\s+-rf
        reCat [reStr (str "subprocess"), dotStar, reStr (str "rm"),
               rePlus Re.spaceC, reStr (str "-rf")] ]
    category := str "filesystem" }

/-- Rule `network_requests`. -/
def networkRequests : PolicyRule :=
  { id := str "network_requests"
    name := str "External Network Requests"
    description := str "Controls external network access"
    severity := .medium
    action := .log
    patterns :=
      [ -- requests\.(get|post|put|delete)
        reCat [reStr (str "requests."),
               Re.alt (reStr (str "get"))
                 (Re.alt (reStr (str "post"))
                   (Re.alt (reStr (str "put")) (reStr (str "delete"))))]
      , reStr (str "urllib.request")
      , reStr (str "http.client")
      , reStr (str "socket.connect") ]
    allowedExceptions := [str "localhost", str "127.0.0.1", str "*.internal.com"]
    category := str "network" }

/-- The six built-in policies, in the insertion order of the source
dictionary. -/
def defaultRules : List PolicyRule :=
  [ prodEnvModification, sensitiveDirectoryAccess, dangerousLibraries
  , databaseCredentialExposure, fileSystemModifications, networkRequests ]

/-! ### Risk aggregator (`security_analyzer.py`) -/

inductive RiskLevel where
  | low | medium | high | critical
deriving DecidableEq

/-- The `SecurityIssue` dataclass. -/
structure SecurityIssue where
  pattern : Str
  riskLevel : RiskLevel
  description : Str
  lineNumber : Option Nat := none
  columnNumber : Option Nat := none
  suggestion : Option Str := none
deriving DecidableEq

/-- One entry of the dangerous-pattern catalogue. -/
structure PatternConfig where
  patterns : List Re
  riskLevel : RiskLevel
  description : Str

/-- `AICodeSecurityAnalyzer._get_suggestion`. -/
def getSuggestion (name : Str) : Str :=
  if name = str "sql_drop_table" then
    str "Use DROP TABLE with explicit WHERE conditions and backups"
  else if name = str "sql_delete_without_where" then
    str "Always include WHERE clause in DELETE statements"
  else if name = str "sql_truncate" then
    str "Consider using DELETE with WHERE for safer data removal"
  else if name = str "eval_exec" then
    str "Use ast.literal_eval() or safer alternatives to dynamic execution"
  else if name = str "system_commands" then
    str "Use subprocess with shell=False and input validation"
  else if name = str "bulk_user_creation" then
    str "Limit batch sizes and add proper validation"
  else if name = str "file_deletion" then
    str "Add existence checks and use try-catch blocks"
  else if name = str "external_requests" then
    str "Validate URLs and use timeout parameters"
  else str "Review this operation for security implications"

/-- The fixed catalogue `_init_dangerous_patterns`, in the insertion order
of the source dictionary; every regex literal transcribed next to a comment
naming its shape. -/
def dangerousPatterns : List (Str × PatternConfig) :=
  [ (str "sql_drop_table",
     { patterns :=
         [ reCat [reStr (str "DROP"), rePlus Re.spaceC, reStr (str "TABLE")]
         , reCat [reStr (str "drop"), rePlus Re.spaceC, reStr (str "table")] ]
       riskLevel := .critical
       description := str "DROP TABLE statement detected - can destroy data permanently" })
  , (str "sql_delete_without_where",
     { patterns :=
         [ -- DELETE\s+FROM\s+\w+(?!\s+WHERE)
           reCat [reStr (str "DELETE"), rePlus Re.spaceC, reStr (str "FROM"),
                  rePlus Re.spaceC, rePlus Re.wordC,
                  Re.negLook (reCat [rePlus Re.spaceC, reStr (str "WHERE")])]
         , reCat [reStr (str "delete"), rePlus Re.spaceC, reStr (str "from"),
                  rePlus Re.spaceC, rePlus Re.wordC,
                  Re.negLook (reCat [rePlus Re.spaceC, reStr (str "where")])] ]
       riskLevel := .critical
       description := str "DELETE without WHERE clause - can delete all records" })
  , (str "sql_truncate",
     { patterns :=
         [ reCat [reStr (str "TRUNCATE"), rePlus Re.spaceC, reStr (str "TABLE")]
         , reCat [reStr (str "truncate"), rePlus Re.spaceC, reStr (str "table")] ]
       riskLevel := .high
       description := str "TRUNCATE TABLE statement detected" })
  , (str "sql_alter_drop",
     { patterns :=
         [ reCat [reStr (str "ALTER"), rePlus Re.spaceC, reStr (str "TABLE"),
                  dotStar, reStr (str "DROP")]
         , reCat [reStr (str "alter"), rePlus Re.spaceC, reStr (str "table"),
                  dotStar, reStr (str "drop")] ]
       riskLevel := .high
       description := str "ALTER TABLE DROP statement detected" })
  , (str "bulk_user_creation",
     { patterns :=
         [ -- for.*range\(\s*\d{3,}\s*\).*user
           reCat [reStr (str "for"), dotStar, reStr (str "range("),
                  Re.star Re.spaceC, Re.digitC, Re.digitC, Re.digitC, Re.star Re.digitC,
                  Re.star Re.spaceC, reStr (str ")"), dotStar, reStr (str "user")]
         , reCat [reStr (str "while"), dotStar, reStr (str "user"),
                  dotStar, reStr (str "create")]
         , reCat [reStr (str "bulk_create"), dotStar, reStr (str "user")] ]
       riskLevel := .medium
       description := str "Mass user creation detected" })
  , (str "bulk_data_insertion",
     { patterns :=
         [ reCat [reStr (str "for"), dotStar, reStr (str "range("),
                  Re.star Re.spaceC, Re.digitC, Re.digitC, Re.digitC, Re.star Re.digitC,
                  Re.star Re.spaceC, reStr (str ")"), dotStar, reStr (str "insert")]
         , reCat [reStr (str "INSERT"), dotStar, reStr (str "VALUES"),
                  dotStar, reStr (str "(")]
         , reStr (str "executemany") ]
       riskLevel := .medium
       description := str "Bulk data insertion operation detected" })
  , (str "eval_exec",
     { patterns :=
         [ -- \beval\s*\(
           reCat [Re.wordB, reStr (str "eval"), Re.star Re.spaceC, reStr (str "(")]
         , reCat [Re.wordB, reStr (str "exec"), Re.star Re.spaceC, reStr (str "(")] ]
       riskLevel := .critical
       description := str "Dynamic code execution (eval/exec) detected" })
  , (str "system_commands",
     { patterns :=
         [ reCat [reStr (str "os.system"), Re.star Re.spaceC, reStr (str "(")]
         , reStr (str "subprocess.call")
         , reStr (str "subprocess.run")
         , reStr (str "shell=True") ]
       riskLevel := .high
       description := str "System command execution detected" })
  , (str "file_deletion",
     { patterns :=
         [ reCat [reStr (str "os.remove"), Re.star Re.spaceC, reStr (str "(")]
         , reCat [reStr (str "os.unlink"), Re.star Re.spaceC, reStr (str "(")]
         , reCat [reStr (str "shutil.rmtree"), Re.star Re.spaceC, reStr (str "(")]
         , reCat [reStr (str "pathlib"), dotStar, reStr (str "unlink"),
                  Re.star Re.spaceC, reStr (str "(")] ]
       riskLevel := .high
       description := str "File deletion operation detected" })
  , (str "external_requests",
     { patterns :=
         [ reCat [reStr (str "requests."),
                  Re.alt (reStr (str "get"))
                    (Re.alt (reStr (str "post"))
                      (Re.alt (reStr (str "put")) (reStr (str "delete"))))]
         , reStr (str "urllib.request")
         , reStr (str "http.client") ]
       riskLevel := .medium
       description := str "External network request detected" }) ]

/-- `AICodeSecurityAnalyzer._analyze_string_patterns`: `re.search` of every
catalogue pattern over every line; at most one issue per pattern and line. -/
def analyzeStringPatterns (code : Str) : List SecurityIssue :=
  dangerousPatterns.flatMap fun nc =>
    nc.2.patterns.flatMap fun re =>
      (enum1 (splitLines code)).filterMap fun nl =>
        if reSearch re nl.2 then
          some
            { pattern := nc.1
              riskLevel := nc.2.riskLevel
              description := nc.2.description
              lineNumber := some nl.1
              suggestion := some (getSuggestion nc.1) }
        else none

/-- The fixed production-name tokens of the analyzer. -/
def productionIndicators : List Str :=
  [ str "prod", str "production", str "live", str "master"
  , str "main_db", str "prod_db", str "production_db", str "live_db" ]

/-- `AICodeSecurityAnalyzer._check_production_indicators`: a line containing
a production token and a connection keyword is flagged high severity. -/
def checkProductionIndicators (code : Str) : List SecurityIssue :=
  (enum1 (splitLines code)).flatMap fun nl =>
    productionIndicators.filterMap fun ind =>
      if listContains (lower nl.2) ind
          && ([str "connect", str "database", str "db", str "host", str "url"].any
               fun kw => listContains (lower nl.2) kw) then
        some
          { pattern := str "production_db_access"
            riskLevel := .high
            description := str "Potential production database access detected: " ++ ind
            lineNumber := some nl.1
            suggestion :=
              some (str "Use development/staging databases for testing and AI-generated code") }
      else none

/-- The fixed severity weights of `_calculate_safety_score`, as rationals. -/
def riskWeight : RiskLevel → ℚ
  | .low => 1 / 10
  | .medium => 3 / 10
  | .high => 3 / 5
  | .critical => 1

/-- Total risk of a list of issues. -/
def totalRisk (issues : List SecurityIssue) : ℚ :=
  (issues.map fun i => riskWeight i.riskLevel).sum

/-- Rounding to the nearest integer with ties to even, the behaviour of the
Python builtin `round`. -/
def roundHalfEven (q : ℚ) : ℤ :=
  if q - ⌊q⌋ < 1 / 2 then ⌊q⌋
  else if 1 / 2 < q - ⌊q⌋ then ⌊q⌋ + 1
  else if ⌊q⌋ % 2 = 0 then ⌊q⌋ else ⌊q⌋ + 1

/-- Python `round(x, 3)`. -/
def round3 (q : ℚ) : ℚ := (roundHalfEven (1000 * q) : ℚ) / 1000

/-- `AICodeSecurityAnalyzer._calculate_safety_score`: `1.0` for no issues,
otherwise `max(0, 1 - totalRisk / 5.0)` rounded to three decimals. -/
def calculateSafetyScore (issues : List SecurityIssue) : ℚ :=
  if issues.isEmpty then 1
  else round3 (max 0 (1 - totalRisk issues / 5))

/-- Status thresholds of `_generate_response`; every comparison of the
source is inclusive. -/
def safetyStatusOf (score : ℚ) : Str :=
  if 4 / 5 ≤ score then str "SAFE"
  else if 3 / 5 ≤ score then str "MODERATE_RISK"
  else if 3 / 10 ≤ score then str "HIGH_RISK"
  else str "CRITICAL_RISK"

/-- `AICodeSecurityAnalyzer._get_recommendation`. -/
def getRecommendation (status : Str) : Str :=
  if status = str "SAFE" then str "Code can be executed with normal precautions."
  else if status = str "MODERATE_RISK" then
    str "Review flagged issues before execution. Consider additional security measures."
  else if status = str "HIGH_RISK" then
    str "Require security team approval before execution. Implement additional safeguards."
  else if status = str "CRITICAL_RISK" then
    str "DO NOT EXECUTE. Requires complete security review and refactoring."
  else str "Manual security review required."

/-- Result of `analyze_code` of the analyzer (the explanation string of the
source interpolates the numeric score, a formatting concern outside the
model, and the timestamp is external state; both are omitted). -/
structure SafetyAssessment where
  safetyScore : ℚ
  safetyStatus : Str
  totalIssues : Nat
  issues : List SecurityIssue
  recommendation : Str
deriving DecidableEq

/-- `AICodeSecurityAnalyzer.analyze_code` for Python input: string-pattern
issues, then the AST-derived issues, then the production indicators.  The
AST visitor needs a successful `ast.parse`, which is outside the embedding,
so its issue list is a parameter; `_analyze_python_ast` yields `[]` when the
input does not parse. -/
def securityAnalyzeCode (code : Str) (astIssues : List SecurityIssue) : SafetyAssessment :=
  let issues := analyzeStringPatterns code ++ astIssues ++ checkProductionIndicators code
  let score := calculateSafetyScore issues
  { safetyScore := score
    safetyStatus := safetyStatusOf score
    totalIssues := issues.length
    issues := issues
    recommendation := getRecommendation (safetyStatusOf score) }

/-! ### Concrete instances used by the theorems below -/

/-- The custom rule of the allow-exception scenario: pattern
`requests\.get` (a literal once the escape is resolved) with allow list
`["localhost"]`. -/
def networkGetRule : PolicyRule :=
  { id := str "r2"
    name := str "net"
    patterns := [reStr (str "requests.get")]
    allowedExceptions := [str "localhost"] }

/-- Parse outcome of `requests.get("http://localhost/x")` (and of the
`example.com` variant): one call with resolved name `requests.get` and no
imported module. -/
def callGetAst : AstInfo := { calls := [(str "requests.get", some 1)] }

/-- Rule with one forbidden directory `/etc/*`. -/
def etcRule : PolicyRule := { id := str "r4d", forbiddenDirectories := [str "/etc/*"] }

/-- Rule with one forbidden environment variable `PROD_*`. -/
def prodStarRule : PolicyRule := { id := str "r4e", forbiddenEnvVars := [str "PROD_*"] }

/-- Rule whose only context condition is `filePatterns = ["*.py"]`. -/
def ruleFileOnly : PolicyRule :=
  { id := str "r5", contextConditions := { filePatterns := some [str "*.py"] } }

/-- Rule with both an environment condition that is satisfied by the default
environment and a file-pattern condition. -/
def ruleEnvAndFile : PolicyRule :=
  { id := str "r6"
    contextConditions :=
      { filePatterns := some [str "*.py"], environment := some [str "development"] } }

/-- Rule whose only context condition is `environment = ["production"]`. -/
def ruleProdEnvOnly : PolicyRule :=
  { id := str "r6p", contextConditions := { environment := some [str "production"] } }

/-- An arbitrary violation fed to the context filter. -/
def sampleViolation : PolicyViolation :=
  { ruleId := str "r5"
    ruleName := str "n"
    severity := .low
    action := .warn
    description := str "d" }

/-- A critical-weight issue of the risk aggregator. -/
def critIssue : SecurityIssue :=
  { pattern := str "sql_drop_table"
    riskLevel := .critical
    description := str "d" }

/-- Rule with one regex pattern that is the literal `abc`. -/
def abcRule : PolicyRule :=
  { id := str "r9"
    name := str "n"
    severity := .high
    action := .warn
    patterns := [reStr (str "abc")] }

/-- The violation `analyzeCode` produces for `abcRule` on the input
`abc`. -/
def abcViolation : PolicyViolation :=
  { ruleId := str "r9"
    ruleName := str "n"
    severity := .high
    action := .warn
    description := str "" ++ str ": Pattern matched"
    lineNumber := some 1
    matchedContent := some (str "abc")
    suggestion := some (str "Avoid using this pattern as it violates policy " ++ str "n")
    policyCategory := str "custom" }

/-- Rule with one forbidden file operation `rm -rf`. -/
def rmRfRule : PolicyRule := { id := str "r10", forbiddenFileOperations := [str "rm -rf"] }

/-! ### Helper lemmas -/

/-- Filtering with a constant predicate keeps or drops the whole list. -/
theorem filter_const {α : Type} (c : Bool) (l : List α) :
    (l.filter fun _ => c) = if c then l else [] := by
  cases c <;> simp

/-- Specification of the Python substring test `needle in hay`. -/
theorem listContains_iff (hay needle : Str) :
    listContains hay needle = true ↔ ∃ pre post, hay = pre ++ needle ++ post := by
  unfold listContains
  rw [List.any_eq_true]
  constructor
  · rintro ⟨i, -, hdec⟩
    rw [decide_eq_true_eq] at hdec
    refine ⟨hay.take i, (hay.drop i).drop needle.length, ?_⟩
    have h2 : hay.drop i = needle ++ (hay.drop i).drop needle.length := by
      conv_lhs => rw [← List.take_append_drop needle.length (hay.drop i)]
      rw [hdec]
    calc hay = hay.take i ++ hay.drop i := (List.take_append_drop i hay).symm
      _ = hay.take i ++ (needle ++ (hay.drop i).drop needle.length) := by rw [← h2]
      _ = hay.take i ++ needle ++ (hay.drop i).drop needle.length := by
          rw [List.append_assoc]
  · rintro ⟨pre, post, rfl⟩
    refine ⟨pre.length, ?_, ?_⟩
    · rw [List.mem_range]
      have : pre.length ≤ (pre ++ needle ++ post).length := by
        simp [List.length_append]
      omega
    · rw [decide_eq_true_eq, List.append_assoc, List.drop_left, List.take_left]

/-- A violation surviving the context filter was among the inputs. -/
theorem mem_of_mem_applyContextConditions {rule : PolicyRule} {vs : List PolicyViolation}
    {ctx : AnalysisContext} {fp : Option Str} {v : PolicyViolation}
    (h : v ∈ applyContextConditions rule vs ctx fp) : v ∈ vs := by
  unfold applyContextConditions at h
  split at h
  · exact h
  · exact (List.mem_filter.1 h).1

/-- Pattern-check violations copy identity, severity and action from the
rule. -/
theorem mem_checkPatterns_fields {rule : PolicyRule} {lines : List Str}
    {v : PolicyViolation} (h : v ∈ checkPatterns rule lines) :
    v.ruleId = rule.id ∧ v.severity = rule.severity ∧ v.action = rule.action := by
  unfold checkPatterns at h
  simp only [List.mem_flatMap, List.mem_filterMap] at h
  obtain ⟨re, -, nl, -, m, -, hv⟩ := h
  split at hv
  · exact absurd hv (by simp)
  · cases hv
    exact ⟨rfl, rfl, rfl⟩

/-- Import-check violations copy identity, severity and action from the
rule. -/
theorem mem_checkImports_fields {rule : PolicyRule} {ast : AstInfo}
    {v : PolicyViolation} (h : v ∈ checkImports rule ast) :
    v.ruleId = rule.id ∧ v.severity = rule.severity ∧ v.action = rule.action := by
  unfold checkImports at h
  simp only [List.mem_flatMap, List.mem_filterMap] at h
  obtain ⟨ml, -, forbidden, -, hv⟩ := h
  split at hv
  · cases hv
    exact ⟨rfl, rfl, rfl⟩
  · exact absurd hv (by simp)

/-- Function-check violations copy identity, severity and action from the
rule. -/
theorem mem_checkFunctions_fields {rule : PolicyRule} {ast : AstInfo}
    {v : PolicyViolation} (h : v ∈ checkFunctions rule ast) :
    v.ruleId = rule.id ∧ v.severity = rule.severity ∧ v.action = rule.action := by
  unfold checkFunctions at h
  simp only [List.mem_flatMap, List.mem_filterMap] at h
  obtain ⟨fl, -, forbidden, -, hv⟩ := h
  split at hv
  · cases hv
    exact ⟨rfl, rfl, rfl⟩
  · exact absurd hv (by simp)

/-- Directory-check violations copy identity, severity and action from the
rule. -/
theorem mem_checkDirectoryAccess_fields {rule : PolicyRule} {lines : List Str}
    {v : PolicyViolation} (h : v ∈ checkDirectoryAccess rule lines) :
    v.ruleId = rule.id ∧ v.severity = rule.severity ∧ v.action = rule.action := by
  unfold checkDirectoryAccess at h
  simp only [List.mem_flatMap, List.mem_filterMap] at h
  obtain ⟨nl, -, d, -, re, -, hv⟩ := h
  split at hv
  · cases hv
    exact ⟨rfl, rfl, rfl⟩
  · exact absurd hv (by simp)

/-- Environment-variable-check violations copy identity, severity and
action from the rule. -/
theorem mem_checkEnvVars_fields {rule : PolicyRule} {lines : List Str}
    {v : PolicyViolation} (h : v ∈ checkEnvVars rule lines) :
    v.ruleId = rule.id ∧ v.severity = rule.severity ∧ v.action = rule.action := by
  unfold checkEnvVars at h
  simp only [List.mem_flatMap, List.mem_filterMap] at h
  obtain ⟨nl, -, ev, -, re, -, hv⟩ := h
  split at hv
  · cases hv
    exact ⟨rfl, rfl, rfl⟩
  · exact absurd hv (by simp)

/-- File-operation-check violations copy identity, severity and action from
the rule. -/
theorem mem_checkFileOperations_fields {rule : PolicyRule} {lines : List Str}
    {v : PolicyViolation} (h : v ∈ checkFileOperations rule lines) :
    v.ruleId = rule.id ∧ v.severity = rule.severity ∧ v.action = rule.action := by
  unfold checkFileOperations at h
  simp only [List.mem_flatMap, List.mem_filterMap] at h
  obtain ⟨nl, -, op, -, hv⟩ := h
  split at hv
  · cases hv
    exact ⟨rfl, rfl, rfl⟩
  · exact absurd hv (by simp)

/-- Every violation `_check_rule` emits carries the identity, severity and
action of the rule it was checked against. -/
theorem mem_checkRule_fields {rule : PolicyRule} {code : Str} {ast : Option AstInfo}
    {fp : Option Str} {ctx : AnalysisContext} {v : PolicyViolation}
    (h : v ∈ checkRule rule code ast fp ctx) :
    v.ruleId = rule.id ∧ v.severity = rule.severity ∧ v.action = rule.action := by
  unfold checkRule at h
  have h' := mem_of_mem_applyContextConditions h
  simp only [List.mem_append] at h'
  rcases h' with ((((hp | hs) | hd) | he) | hf)
  · exact mem_checkPatterns_fields hp
  · cases ast with
    | none => exact absurd hs (by simp)
    | some t =>
      simp only [List.mem_append, checkAstRules, List.not_mem_nil, or_false] at hs
      rcases hs with hi | hfn
      · exact mem_checkImports_fields hi
      · exact mem_checkFunctions_fields hfn
  · exact mem_checkDirectoryAccess_fields hd
  · exact mem_checkEnvVars_fields he
  · exact mem_checkFileOperations_fields hf

/-- Total risk of one more issue at the end of the list. -/
theorem totalRisk_append_singleton (l : List SecurityIssue) (i : SecurityIssue) :
    totalRisk (l ++ [i]) = totalRisk l + riskWeight i.riskLevel := by
  simp [totalRisk]

/-- Total risk of one more issue at the head of the list. -/
theorem totalRisk_cons (i : SecurityIssue) (t : List SecurityIssue) :
    totalRisk (i :: t) = riskWeight i.riskLevel + totalRisk t := by
  simp [totalRisk]

/-- Every reachable total risk is a natural number of tenths, because every
severity weight is. -/
theorem totalRisk_tenths (issues : List SecurityIssue) :
    ∃ k : ℕ, totalRisk issues = (k : ℚ) / 10 := by
  induction issues with
  | nil => exact ⟨0, by simp [totalRisk]⟩
  | cons i t ih =>
    obtain ⟨k, hk⟩ := ih
    rw [totalRisk_cons, hk]
    cases hrl : i.riskLevel
    · exact ⟨1 + k, by simp [riskWeight]; ring⟩
    · exact ⟨3 + k, by simp [riskWeight]; ring⟩
    · exact ⟨6 + k, by simp [riskWeight]; ring⟩
    · exact ⟨10 + k, by simp [riskWeight]; ring⟩

/-- Total risk is never negative. -/
theorem totalRisk_nonneg (issues : List SecurityIssue) : 0 ≤ totalRisk issues := by
  obtain ⟨k, hk⟩ := totalRisk_tenths issues
  rw [hk]
  positivity

/-- Rounding with ties to even fixes every integer. -/
theorem roundHalfEven_intCast (n : ℤ) : roundHalfEven (n : ℚ) = n := by
  unfold roundHalfEven
  rw [Int.floor_intCast]
  norm_num

/-- Python `round(x, 3)` fixes every rational that already is a multiple of
one thousandth. -/
theorem round3_fixed {q : ℚ} (h : ∃ n : ℤ, 1000 * q = (n : ℚ)) : round3 q = q := by
  obtain ⟨n, hn⟩ := h
  unfold round3
  rw [hn, roundHalfEven_intCast]
  have h1000 : (1000 : ℚ) ≠ 0 := by norm_num
  field_simp
  linarith [hn]

/-- The clamped normalized score of a reachable total risk is a multiple of one
thousandth. -/
theorem exists_int_inner {t : ℚ} (h : ∃ k : ℕ, t = (k : ℚ) / 10) :
    ∃ n : ℤ, 1000 * max 0 (1 - t / 5) = (n : ℚ) := by
  obtain ⟨k, rfl⟩ := h
  rcases le_total (1 - (k : ℚ) / 10 / 5) 0 with h0 | h0
  · exact ⟨0, by rw [max_eq_left h0]; ring⟩
  · refine ⟨1000 - 20 * (k : ℤ), ?_⟩
    rw [max_eq_right h0]
    push_cast
    ring

/-- The empty issue list scores exactly one. -/
theorem calculateSafetyScore_nil : calculateSafetyScore [] = 1 := rfl

/-- On a non-empty issue list the score is the clamped normalized total
risk; the rounding step is the identity there because every reachable value
is already a multiple of one thousandth. -/
theorem calculateSafetyScore_of_ne_nil {issues : List SecurityIssue} (h : issues ≠ []) :
    calculateSafetyScore issues = max 0 (1 - totalRisk issues / 5) := by
  cases issues with
  | nil => exact absurd rfl h
  | cons a t =>
    unfold calculateSafetyScore
    simp only [List.isEmpty_cons, Bool.false_eq_true, if_false]
    exact round3_fixed (exists_int_inner (totalRisk_tenths (a :: t)))

/-- The safety score is never negative. -/
theorem calculateSafetyScore_nonneg (issues : List SecurityIssue) :
    0 ≤ calculateSafetyScore issues := by
  cases issues with
  | nil => rw [calculateSafetyScore_nil]; norm_num
  | cons a t =>
    rw [calculateSafetyScore_of_ne_nil (List.cons_ne_nil a t)]
    exact le_max_left 0 _

/-- The safety score never exceeds one. -/
theorem calculateSafetyScore_le_one (issues : List SecurityIssue) :
    calculateSafetyScore issues ≤ 1 := by
  cases issues with
  | nil => rw [calculateSafetyScore_nil]
  | cons a t =>
    rw [calculateSafetyScore_of_ne_nil (List.cons_ne_nil a t)]
    have h0 := totalRisk_nonneg (a :: t)
    apply max_le (by norm_num)
    linarith

/-! ### Claim theorems -/

/-- C1: for every input string, `analyze_code` terminates normally and never
raises, even when the input is syntactically invalid Python (every function
of the embedding is total, and the one fallible step — the parse — is
consumed as an explicit `Option`); a parse failure only disables the
structural (AST) checks: the result is exactly what the pattern-based and
resource-based checks produce, filtered by the context conditions. -/
theorem evaluate_parse_failure_degrades :
    ∀ (rules : List PolicyRule) (code : Str) (fp : Option Str) (ctx : AnalysisContext),
      analyzeCode rules code none fp ctx =
        rules.flatMap fun r =>
          if r.enabled then
            applyContextConditions r
              (checkPatterns r (splitLines code)
                ++ checkDirectoryAccess r (splitLines code)
                ++ checkEnvVars r (splitLines code)
                ++ checkFileOperations r (splitLines code)) ctx fp
          else [] := by
  intro rules code fp ctx
  unfold analyzeCode checkRule
  simp [List.append_assoc]

/-- C2 counterexample: with pattern `requests\.get` and allowed exception
`localhost`, evaluating `requests.get("http://localhost/x")` still produces
one violation — the claim says the allow-exception suppresses it. -/
theorem allow_exception_localhost_counterexample :
    (analyzeCode [networkGetRule] (str "requests.get(\"http://localhost/x\")")
      (some callGetAst) none {}).length = 1 := by decide

/-- C2 amended: the allow-exception test applies to the matched substring —
here `requests.get`, which satisfies no glob of `["localhost"]` — so both
the localhost call and the example.com call produce exactly one violation
each. -/
theorem pattern_exception_tests_matched_substring :
    ((analyzeCode [networkGetRule] (str "requests.get(\"http://localhost/x\")")
        (some callGetAst) none {}).map fun v => v.matchedContent)
      = [some (str "requests.get")] ∧
    ((analyzeCode [networkGetRule] (str "requests.get(\"http://example.com\")")
        (some callGetAst) none {}).map fun v => v.matchedContent)
      = [some (str "requests.get")] ∧
    isExceptionAllowed (str "requests.get") (str "localhost" :: []) = false := by
  decide

/-- Safety score of the `DROP TABLE users` analysis: both casing variants
of the drop-table pattern match under the case-insensitive search, so the
total risk is two critical weights and the score is `1 - 2/5`. -/
theorem dropTable_safetyScore :
    (securityAnalyzeCode (str "DROP TABLE users") []).safetyScore = 3 / 5 := by
  have hmap : ((securityAnalyzeCode (str "DROP TABLE users") []).issues.map
      fun i => i.riskLevel) = [.critical, .critical] := by decide
  have hne : (securityAnalyzeCode (str "DROP TABLE users") []).issues ≠ [] := by
    intro h
    rw [h] at hmap
    simp at hmap
  have htr : totalRisk (securityAnalyzeCode (str "DROP TABLE users") []).issues
      = (([RiskLevel.critical, RiskLevel.critical]).map riskWeight).sum := by
    unfold totalRisk
    rw [← hmap, List.map_map]
    rfl
  have hproj : (securityAnalyzeCode (str "DROP TABLE users") []).safetyScore
      = calculateSafetyScore (securityAnalyzeCode (str "DROP TABLE users") []).issues := rfl
  rw [hproj, calculateSafetyScore_of_ne_nil hne, htr]
  simp only [List.map_cons, List.map_nil, List.sum_cons, List.sum_nil, riskWeight]
  rw [show (1 : ℚ) - (1 + (1 + 0)) / 5 = 3 / 5 by norm_num,
    max_eq_right (by norm_num : (0 : ℚ) ≤ 3 / 5)]

/-- C3 counterexample: analyzing `DROP TABLE users` records two
critical-weight hits, not one, and the safety score is not `0.8` — the
claim asserts exactly one hit and a score of exactly `0.8`. -/
theorem drop_table_single_hit_counterexample :
    (securityAnalyzeCode (str "DROP TABLE users") []).totalIssues = 2 ∧
    (securityAnalyzeCode (str "DROP TABLE users") []).safetyScore ≠ 4 / 5 := by
  refine ⟨by decide, ?_⟩
  rw [dropTable_safetyScore]
  norm_num

/-- C3 amended: analyzing `DROP TABLE users` records two CRITICAL-weight
hits (the catalogue lists both casing variants of the drop-table pattern and
both match under the case-insensitive search), so `safetyScore = 1 - 2/5 =
0.6` and the status is MODERATE_RISK; the `0.8` threshold itself is indeed
inclusive: a score of exactly `0.8` maps to SAFE. -/
theorem drop_table_two_critical_hits :
    ((securityAnalyzeCode (str "DROP TABLE users") []).issues.map
        fun i => i.riskLevel) = [.critical, .critical] ∧
    (securityAnalyzeCode (str "DROP TABLE users") []).safetyScore = 3 / 5 ∧
    (securityAnalyzeCode (str "DROP TABLE users") []).safetyStatus = str "MODERATE_RISK" ∧
    safetyStatusOf (4 / 5) = str "SAFE" := by
  refine ⟨by decide, dropTable_safetyScore, ?_, ?_⟩
  · show safetyStatusOf ((securityAnalyzeCode (str "DROP TABLE users") []).safetyScore)
      = str "MODERATE_RISK"
    rw [dropTable_safetyScore]
    unfold safetyStatusOf
    rw [if_neg (by norm_num), if_pos (by norm_num)]
  · unfold safetyStatusOf
    rw [if_pos (by norm_num)]

/-- C4: the source substitutes `*` by `.*` and only then applies
`re.escape`, so the wildcard characters are escaped into literals: the
directory matcher for `/etc/*` rejects a line quoting `/etc/passwd` and the
environment matcher for `PROD_*` rejects `os.environ["PROD_X"]`, while both
accept lines spelling the literal text `.*` — the wildcard never matches an
arbitrary run of characters. -/
theorem wildcard_neutralized_by_escape :
    checkDirectoryAccess etcRule [str "open(\"/etc/passwd\")"] = [] ∧
    checkEnvVars prodStarRule [str "os.environ[\"PROD_X\"] = \"1\""] = [] ∧
    checkDirectoryAccess etcRule [str "x = \"/etc/.*\""] ≠ [] ∧
    checkEnvVars prodStarRule [str "os.environ[\"PROD_.*\"] = \"1\""] ≠ [] := by
  refine ⟨by decide, by decide, by decide, by decide⟩

/-- C5 counterexample: a rule defining `contextConditions.filePatterns`
keeps its violations when no file path is supplied — the claim says they are
all dropped. -/
theorem file_patterns_no_path_counterexample :
    applyContextConditions ruleFileOnly [sampleViolation] {} none = [sampleViolation] := by
  decide

/-- C5 amended: for a rule whose only context condition is `filePatterns`,
the condition is skipped — violations are kept — when no file path (or an
empty one) is supplied, and with a non-empty path the violations are kept
exactly when the path matches at least one glob of the list. -/
theorem file_patterns_context_filter :
    ∀ (r : PolicyRule) (pats : List Str) (vs : List PolicyViolation)
      (ctx : AnalysisContext),
      r.contextConditions = { filePatterns := some pats } →
      applyContextConditions r vs ctx none = vs ∧
      applyContextConditions r vs ctx (some []) = vs ∧
      ∀ fp : Str, fp ≠ [] →
        applyContextConditions r vs ctx (some fp) =
          if pats.any (fun p => fnmatchL p fp) then vs else [] := by
  intro r pats vs ctx h
  refine ⟨?_, ?_, ?_⟩
  · simp [applyContextConditions, h, ContextConditions.isEmptyCC, fileCondHolds,
      envCondHolds]
  · simp [applyContextConditions, h, ContextConditions.isEmptyCC, fileCondHolds,
      envCondHolds]
  · intro fp hfp
    cases fp with
    | nil => exact absurd rfl hfp
    | cons c cs =>
      simp only [applyContextConditions, h, ContextConditions.isEmptyCC,
        fileCondHolds, envCondHolds, Option.isNone_some, Bool.false_and,
        Bool.false_eq_true, if_false, List.isEmpty_cons, Bool.and_true]
      rw [filter_const]

/-- C5 witness: the amended statement applied to the concrete rule whose
only context condition is `filePatterns = ["*.py"]`. -/
theorem file_patterns_context_filter_witness :
    ruleFileOnly.contextConditions = { filePatterns := some [str "*.py"] } ∧
    applyContextConditions ruleFileOnly [sampleViolation] {} (some []) = [sampleViolation] :=
  ⟨rfl, (file_patterns_context_filter ruleFileOnly [str "*.py"] [sampleViolation] {} rfl).2.1⟩

/-- C6 counterexample: a rule defining `contextConditions.environment =
["development"]` together with a file-pattern condition drops its violation
although the context environment value (the default, `development`) is a
member of the configured list — refuting the claimed equivalence. -/
theorem environment_iff_counterexample :
    ruleEnvAndFile.contextConditions.environment = some [str "development"] ∧
    ((({} : AnalysisContext).environment.getD (str "development"))
      ∈ [str "development"]) ∧
    applyContextConditions ruleEnvAndFile [sampleViolation] {} (some (str "a.txt")) = [] := by
  refine ⟨rfl, by decide, by decide⟩

/-- C6 amended: for a rule whose only context condition is `environment`,
a violation is kept exactly when the caller context environment value —
defaulting to `development` — is a member of the configured list (with
further context conditions the membership is necessary but not sufficient);
in particular an environment-only rule with `["production"]` keeps nothing
when the context environment is absent or `development` and keeps everything
when it is `production`. -/
theorem environment_context_filter :
    (∀ (r : PolicyRule) (envs : List Str) (vs : List PolicyViolation)
       (ctx : AnalysisContext) (fp : Option Str),
       r.contextConditions = { environment := some envs } →
       applyContextConditions r vs ctx fp =
         if envs.contains (ctx.environment.getD (str "development")) then vs else []) ∧
    (∀ (vs : List PolicyViolation) (fp : Option Str),
       applyContextConditions ruleProdEnvOnly vs {} fp = [] ∧
       applyContextConditions ruleProdEnvOnly vs { environment := some (str "development") } fp
         = [] ∧
       applyContextConditions ruleProdEnvOnly vs { environment := some (str "production") } fp
         = vs) := by
  have hmain : ∀ (r : PolicyRule) (envs : List Str) (vs : List PolicyViolation)
      (ctx : AnalysisContext) (fp : Option Str),
      r.contextConditions = { environment := some envs } →
      applyContextConditions r vs ctx fp =
        if envs.contains (ctx.environment.getD (str "development")) then vs else [] := by
    intro r envs vs ctx fp h
    simp only [applyContextConditions, h, ContextConditions.isEmptyCC,
      fileCondHolds, envCondHolds, Option.isNone_some, Option.isNone_none,
      Bool.true_and, Bool.and_false, Bool.false_and, Bool.false_eq_true, if_false,
      Bool.not_false, Bool.and_true, Bool.true_eq_false]
    cases fp <;> rw [filter_const]
  refine ⟨hmain, fun vs fp => ?_⟩
  refine ⟨?_, ?_, ?_⟩
  · rw [hmain ruleProdEnvOnly [str "production"] vs {} fp rfl, if_neg (by decide)]
  · rw [hmain ruleProdEnvOnly [str "production"] vs
      { environment := some (str "development") } fp rfl, if_neg (by decide)]
  · rw [hmain ruleProdEnvOnly [str "production"] vs
      { environment := some (str "production") } fp rfl, if_pos (by decide)]

/-- C6 witness: the amended statement applied to the concrete
environment-only rule. -/
theorem environment_context_filter_witness :
    ruleProdEnvOnly.contextConditions = { environment := some [str "production"] } ∧
    applyContextConditions ruleProdEnvOnly [sampleViolation]
      { environment := some (str "production") } none = [sampleViolation] :=
  ⟨rfl, (environment_context_filter.2 [sampleViolation] none).2.2⟩

/-- C7: with the default built-in rule set, evaluating
`os.environ["PROD_DATABASE_URL"] = "x"` (which parses, with no imports and
no calls) makes the production-environment rule fire at CRITICAL severity
with action block, and the endpoint result has `blocked = true`; in general
`blocked` is true exactly when some returned violation carries the block
action. -/
theorem prod_env_blocked :
    ((analyzeWithPoliciesEndpoint defaultRules
        (str "os.environ[\"PROD_DATABASE_URL\"] = \"x\"") (some {}) none {}).blocked = true ∧
      ∃ v ∈ (analyzeWithPoliciesEndpoint defaultRules
          (str "os.environ[\"PROD_DATABASE_URL\"] = \"x\"") (some {}) none {}).violations,
        v.ruleId = str "prod_env_modification" ∧ v.severity = .critical ∧
          v.action = .block) ∧
    ∀ (rules : List PolicyRule) (code : Str) (ast : Option AstInfo) (fp : Option Str)
      (ctx : AnalysisContext),
      ((analyzeWithPoliciesEndpoint rules code ast fp ctx).blocked = true ↔
        ∃ v ∈ (analyzeWithPoliciesEndpoint rules code ast fp ctx).violations,
          v.action = .block) := by
  refine ⟨⟨by decide, by decide⟩, ?_⟩
  intro rules code ast fp ctx
  simp [analyzeWithPoliciesEndpoint, List.any_eq_true]

/-- C8: appending one more critical-weight hit never increases the safety
score; the score always lies in `[0, 1]`; it is `1` for the empty issue list
and otherwise equals `max 0 (1 - totalRisk/5)` rounded to three decimals. -/
theorem safety_score_monotone_bounded :
    (∀ (issues : List SecurityIssue) (i : SecurityIssue), i.riskLevel = .critical →
      calculateSafetyScore (issues ++ [i]) ≤ calculateSafetyScore issues) ∧
    (∀ issues : List SecurityIssue,
      0 ≤ calculateSafetyScore issues ∧ calculateSafetyScore issues ≤ 1) ∧
    calculateSafetyScore [] = 1 ∧
    (∀ issues : List SecurityIssue, issues ≠ [] →
      calculateSafetyScore issues = round3 (max 0 (1 - totalRisk issues / 5))) := by
  refine ⟨?_, ?_, calculateSafetyScore_nil, ?_⟩
  · intro issues i hcrit
    cases issues with
    | nil =>
      rw [List.nil_append, calculateSafetyScore_nil]
      exact calculateSafetyScore_le_one [i]
    | cons a t =>
      rw [calculateSafetyScore_of_ne_nil (by simp : a :: t ++ [i] ≠ []),
        calculateSafetyScore_of_ne_nil (List.cons_ne_nil a t),
        totalRisk_append_singleton, hcrit]
      have hw : riskWeight RiskLevel.critical = 1 := rfl
      rw [hw]
      apply max_le_max le_rfl
      have h0 := totalRisk_nonneg (a :: t)
      linarith
  · intro issues
    exact ⟨calculateSafetyScore_nonneg issues, calculateSafetyScore_le_one issues⟩
  · intro issues h
    cases issues with
    | nil => exact absurd rfl h
    | cons a t =>
      rw [calculateSafetyScore_of_ne_nil (List.cons_ne_nil a t),
        round3_fixed (exists_int_inner (totalRisk_tenths (a :: t)))]

/-- C8 witness: the monotonicity and the closed form applied to a concrete
critical issue. -/
theorem safety_score_monotone_bounded_witness :
    critIssue.riskLevel = RiskLevel.critical ∧
    calculateSafetyScore ([] ++ [critIssue]) ≤ calculateSafetyScore [] ∧
    ([critIssue] ≠ [] ∧
      calculateSafetyScore [critIssue] = round3 (max 0 (1 - totalRisk [critIssue] / 5))) :=
  ⟨rfl, safety_score_monotone_bounded.1 [] critIssue rfl,
    List.cons_ne_nil critIssue [],
    safety_score_monotone_bounded.2.2.2 [critIssue] (List.cons_ne_nil critIssue [])⟩

/-- C9: when rule identifiers are pairwise distinct (the dictionary
invariant of the rule store), every violation `analyze_code` returns carries
exactly the severity and action of the rule whose id it names. -/
theorem violation_inherits_rule_fields :
    ∀ (rules : List PolicyRule) (code : Str) (ast : Option AstInfo) (fp : Option Str)
      (ctx : AnalysisContext) (v : PolicyViolation),
      rules.Pairwise (fun a b => a.id ≠ b.id) →
      v ∈ analyzeCode rules code ast fp ctx →
      ∀ r ∈ rules, r.id = v.ruleId → v.severity = r.severity ∧ v.action = r.action := by
  intro rules code ast fp ctx v hpw hv r hr hid
  unfold analyzeCode at hv
  rw [List.mem_flatMap] at hv
  obtain ⟨r0, hr0, hv0⟩ := hv
  split at hv0
  case isFalse => exact absurd hv0 (by simp)
  case isTrue =>
    have hf := mem_checkRule_fields hv0
    by_cases heq : r = r0
    · subst heq
      exact ⟨hf.2.1.symm ▸ rfl, hf.2.2.symm ▸ rfl⟩
    · have hsymm : Symmetric (fun a b : PolicyRule => a.id ≠ b.id) :=
        fun a b hab hba => hab hba.symm
      have hne := hpw.forall hsymm hr hr0 heq
      exact absurd (hid.trans hf.1) hne

/-- C9 witness: the invariant applied to a concrete one-rule store and the
violation it produces on the input `abc`. -/
theorem violation_inherits_rule_fields_witness :
    ([abcRule].Pairwise fun a b => a.id ≠ b.id) ∧
    (abcViolation.severity = abcRule.severity ∧ abcViolation.action = abcRule.action) :=
  ⟨List.pairwise_singleton _ abcRule,
    violation_inherits_rule_fields [abcRule] (str "abc") none none {} abcViolation
      (List.pairwise_singleton _ abcRule) (by decide) abcRule (by decide) (by decide)⟩

/-- C10: the forbidden-file-operation detector is plain case-insensitive
substring containment — a line yields a violation exactly when some
configured operation string occurs contiguously in it (after lowering both),
with no glob or regex interpretation, and the operation string itself
satisfies no allow-exception glob; the second part specializes the
equivalence to a rule with a single configured operation. -/
theorem file_operations_substring :
    (∀ (r : PolicyRule) (line : Str),
      checkFileOperations r [line] ≠ [] ↔
        ∃ op ∈ r.forbiddenFileOperations,
          (∃ pre post, lower line = pre ++ lower op ++ post) ∧
          isExceptionAllowed op r.allowedExceptions = false) ∧
    (∀ (r : PolicyRule) (op : Str) (line : Str),
      r.forbiddenFileOperations = [op] →
      (checkFileOperations r [line] ≠ [] ↔
        (∃ pre post, lower line = pre ++ lower op ++ post) ∧
        isExceptionAllowed op r.allowedExceptions = false)) := by
  have hmain : ∀ (r : PolicyRule) (line : Str),
      checkFileOperations r [line] ≠ [] ↔
        ∃ op ∈ r.forbiddenFileOperations,
          (∃ pre post, lower line = pre ++ lower op ++ post) ∧
          isExceptionAllowed op r.allowedExceptions = false := by
    intro r line
    unfold checkFileOperations
    have hsingle : enum1 [line] = [(1, line)] := rfl
    rw [hsingle]
    simp only [List.flatMap_cons, List.flatMap_nil, List.append_nil]
    rw [ne_eq, List.filterMap_eq_nil_iff]
    push_neg
    constructor
    · rintro ⟨op, hop, hne⟩
      refine ⟨op, hop, ?_⟩
      by_cases hc : (listContains (lower line) (lower op)
          && !isExceptionAllowed op r.allowedExceptions) = true
      · rw [Bool.and_eq_true, Bool.not_eq_true'] at hc
        exact ⟨(listContains_iff _ _).1 hc.1, hc.2⟩
      · rw [if_neg hc] at hne
        exact absurd rfl hne
    · rintro ⟨op, hop, hsub, hexc⟩
      refine ⟨op, hop, ?_⟩
      have hc : (listContains (lower line) (lower op)
          && !isExceptionAllowed op r.allowedExceptions) = true := by
        rw [Bool.and_eq_true, Bool.not_eq_true']
        exact ⟨(listContains_iff _ _).2 hsub, hexc⟩
      rw [if_pos hc]
      simp
  exact ⟨hmain, fun r op line hops => by rw [hmain r line, hops]; simp⟩

/-- C10 witness: the single-operation equivalence applied to the concrete
rule forbidding `rm -rf` on a concrete line containing it. -/
theorem file_operations_substring_witness :
    rmRfRule.forbiddenFileOperations = [str "rm -rf"] ∧
    (checkFileOperations rmRfRule [str "subprocess.call(\"RM -RF /tmp\")"] ≠ [] ↔
      (∃ pre post, lower (str "subprocess.call(\"RM -RF /tmp\")")
          = pre ++ lower (str "rm -rf") ++ post) ∧
      isExceptionAllowed (str "rm -rf") rmRfRule.allowedExceptions = false) :=
  ⟨rfl, file_operations_substring.2 rmRfRule (str "rm -rf")
    (str "subprocess.call(\"RM -RF /tmp\")") rfl⟩

end AIFirewall
